import Mathlib

/-!
Shallow embedding of the bounded-concurrency job scheduler from the source
(`App` component): job records, the job-matrix builder (`handleGenerate`),
the cancellation controller (`handleCancel`), the scheduler re-evaluation
(the `useEffect` body), the settlement branches of `runGeneration`, and
`handleRegenerate`, together with a step relation over app states and the
invariants the claims are about.
-/

namespace Dex

/-- `Mode` from `types.ts`. -/
inductive Mode where
  | vector
  | matrix
deriving DecidableEq, Repr

/-- `OutputStatus` from `types.ts`. -/
inductive OutputStatus where
  | pending
  | generating
  | complete
  | error
deriving DecidableEq, Repr

/-- `UploadedImage` from `types.ts` (the opaque `File` handle is dropped;
only `id` and `base64Data` are ever read by the scheduler core). -/
structure UploadedImage where
  id : Nat
  base64Data : String
deriving DecidableEq, Repr

/-- `Prompt` from `types.ts`; `id = -1` is the vector-mode sentinel. -/
structure Prompt where
  id : Int
  title : String
  text : String
deriving DecidableEq, Repr

/-- `Output` from `types.ts`. -/
structure Output where
  id : Nat
  sourceImageId : Nat
  promptId : Int
  imageUrl : Option String
  status : OutputStatus
  error : Option String
deriving DecidableEq, Repr

/-- `const API_CONCURRENCY_LIMIT = 2`. -/
def API_CONCURRENCY_LIMIT : Nat := 2

/-- The React state of the `App` component that the scheduler core touches:
`currentMode`, `uploadedImages`, `prompts`, `vectorPrompt`, `outputs`,
`isGenerating`, the `nextId` counter ref and the `processingIds` set ref. -/
structure AppState where
  currentMode : Mode
  uploadedImages : List UploadedImage
  prompts : List Prompt
  vectorPrompt : String
  outputs : List Output
  isGenerating : Bool
  nextId : Nat
  processingIds : Finset Nat
deriving DecidableEq

/-- The initial render state: everything empty, vector mode, flag off. -/
def initState : AppState :=
  { currentMode := Mode.vector
    uploadedImages := []
    prompts := []
    vectorPrompt := ""
    outputs := []
    isGenerating := false
    nextId := 0
    processingIds := ∅ }

/-- Inner loop of `handleGenerate`: one row of the matrix, pushing one
pending `Output` per prompt, with the shared `nextId` counter threaded
through (`nextId.current++`). -/
def buildRow (imgId : Nat) (ps : List Prompt) (n : Nat) : List Output × Nat :=
  match ps with
  | [] => ([], n)
  | p :: rest =>
    let tail := buildRow imgId rest (n + 1)
    (⟨n, imgId, p.id, none, OutputStatus.pending, none⟩ :: tail.1, tail.2)

/-- The nested loop of `handleGenerate`: outer loop over images in upload
order, inner loop over prompts in creation order. -/
def buildOutputs (imgs : List UploadedImage) (ps : List Prompt) (n : Nat) :
    List Output × Nat :=
  match imgs with
  | [] => ([], n)
  | i :: rest =>
    let row := buildRow i.id ps n
    let tail := buildOutputs rest ps row.2
    (row.1 ++ tail.1, tail.2)

/-- `isVectorReady` inside `handleGenerate`. -/
def isVectorReady (s : AppState) : Prop :=
  s.currentMode = Mode.vector ∧ s.vectorPrompt.trim ≠ ""

/-- `isMatrixReady` inside `handleGenerate`. -/
def isMatrixReady (s : AppState) : Prop :=
  s.currentMode = Mode.matrix ∧ s.prompts.length > 0

instance (s : AppState) : Decidable (isVectorReady s) := by
  unfold isVectorReady; infer_instance

instance (s : AppState) : Decidable (isMatrixReady s) := by
  unfold isMatrixReady; infer_instance

/-- `promptsToUse` inside `handleGenerate`: vector mode synthesizes the one
sentinel prompt with id `-1`. -/
def promptsToUse (s : AppState) : List Prompt :=
  if s.currentMode = Mode.vector then [⟨-1, "Vector", s.vectorPrompt⟩]
  else s.prompts

/-- `handleGenerate`. The returned `Bool` records whether the validation
`alert` fired. The early `return` when `isGenerating` or no image is
uploaded is silent (no alert); only the not-ready branch alerts. -/
def handleGenerate (s : AppState) : AppState × Bool :=
  if s.isGenerating = true ∨ s.uploadedImages.length = 0 then (s, false)
  else if ¬ isVectorReady s ∧ ¬ isMatrixReady s then (s, true)
  else
    ({ s with
        outputs := (buildOutputs s.uploadedImages (promptsToUse s) s.nextId).1
        isGenerating := true
        nextId := (buildOutputs s.uploadedImages (promptsToUse s) s.nextId).2 },
      false)

/-- Per-job effect of `handleCancel`'s `setOutputs` map. -/
def cancelOutput (o : Output) : Output :=
  if o.status = OutputStatus.pending ∨ o.status = OutputStatus.generating then
    { o with status := OutputStatus.error, error := some "Cancelled by user." }
  else o

/-- `handleCancel`: flag off, mark all non-terminal jobs errored, clear the
in-flight set. -/
def handleCancel (s : AppState) : AppState :=
  { s with
      isGenerating := false
      outputs := s.outputs.map cancelOutput
      processingIds := ∅ }

/-- JavaScript `arr.slice(0, e)`: a negative end index counts from the end
of the array. -/
def jsSliceTo (l : List Output) (e : Int) : List Output :=
  if 0 ≤ e then l.take e.toNat else l.take ((l.length : Int) + e).toNat

/-- `pendingOutputs` of the scheduler effect: pending jobs not already in
flight. -/
def pendingOutputs (s : AppState) : List Output :=
  s.outputs.filter fun o =>
    decide (o.status = OutputStatus.pending ∧ ¬ o.id ∈ s.processingIds)

/-- `availableSlots = API_CONCURRENCY_LIMIT - processingIds.current.size`
(JavaScript number arithmetic, so an integer that may go negative). -/
def availableSlots (s : AppState) : Int :=
  (API_CONCURRENCY_LIMIT : Int) - (s.processingIds.card : Int)

/-- `itemsToProcess = pendingOutputs.slice(0, availableSlots)`. -/
def itemsToProcess (s : AppState) : List Output :=
  jsSliceTo (pendingOutputs s) (availableSlots s)

/-- Synchronous effect of admitting one job: add its id to the in-flight
set and mark it `generating` (the dispatch itself settles later). -/
def dispatchOne (s : AppState) (jobId : Nat) : AppState :=
  { s with
      processingIds := insert jobId s.processingIds
      outputs := s.outputs.map fun o =>
        if o.id = jobId then { o with status := OutputStatus.generating }
        else o }

/-- One synchronous run of the scheduler `useEffect` body: early return
when the flag is off; termination check; otherwise admit and dispatch each
item of `itemsToProcess`. -/
def schedulerTick (s : AppState) : AppState :=
  if s.isGenerating = false then s
  else if (itemsToProcess s).length = 0 ∧ s.processingIds.card = 0 then
    if s.outputs.any (fun o => decide (o.status = OutputStatus.pending)) then s
    else { s with isGenerating := false }
  else (itemsToProcess s).foldl (fun acc o => dispatchOne acc o.id) s

/-- Success settlement of `runGeneration`: guarded by
`o.status === 'generating'`; releases the in-flight slot. -/
def settleSuccess (s : AppState) (jobId : Nat) (url : String) : AppState :=
  { s with
      outputs := s.outputs.map fun o =>
        if o.id = jobId ∧ o.status = OutputStatus.generating then
          { o with status := OutputStatus.complete, imageUrl := some url,
                   error := none }
        else o
      processingIds := s.processingIds.erase jobId }

/-- Failure (catch) settlement of `runGeneration`: matches on id only —
there is no status guard in this branch; releases the in-flight slot. -/
def settleFailure (s : AppState) (jobId : Nat) (msg : String) : AppState :=
  { s with
      outputs := s.outputs.map fun o =>
        if o.id = jobId then
          { o with status := OutputStatus.error, error := some msg }
        else o
      processingIds := s.processingIds.erase jobId }

/-- The defensive missing-image-or-prompt branch of `runGeneration`. -/
def settleMissing (s : AppState) (jobId : Nat) : AppState :=
  { s with
      outputs := s.outputs.map fun o =>
        if o.id = jobId then
          { o with status := OutputStatus.error,
                   error := some "Missing image or prompt." }
        else o
      processingIds := s.processingIds.erase jobId }

/-- `handleRegenerate`: unconditionally reset the addressed job to pending
with cleared result and error, then turn the flag on if it was off. -/
def handleRegenerate (s : AppState) (jobId : Nat) : AppState :=
  { s with
      outputs := s.outputs.map fun o =>
        if o.id = jobId then
          { o with status := OutputStatus.pending, imageUrl := none,
                   error := none }
        else o
      isGenerating := if s.isGenerating = false then true else s.isGenerating }

/-- One `FileReader.onload` completion inside `handleFilesSelected`. -/
def handleFilesSelected (s : AppState) (base64Data : String) : AppState :=
  { s with
      uploadedImages := s.uploadedImages ++ [⟨s.nextId, base64Data⟩]
      nextId := s.nextId + 1 }

/-- `handleClearUploads`. -/
def handleClearUploads (s : AppState) : AppState :=
  { s with uploadedImages := [], outputs := [] }

/-- `handleRemoveUpload`. -/
def handleRemoveUpload (s : AppState) (imgId : Nat) : AppState :=
  { s with
      uploadedImages := s.uploadedImages.filter fun i => decide (¬ i.id = imgId) }

/-- `handleAddPrompt` (shares the `nextId` counter). -/
def handleAddPrompt (s : AppState) (title text : String) : AppState :=
  { s with
      prompts := s.prompts ++ [⟨(s.nextId : Int), title, text⟩]
      nextId := s.nextId + 1 }

/-- `handleRemovePrompt`. -/
def handleRemovePrompt (s : AppState) (pId : Int) : AppState :=
  { s with prompts := s.prompts.filter fun p => decide (¬ p.id = pId) }

/-- `handleModeChange`: switching modes discards the job set. -/
def handleModeChange (s : AppState) (m : Mode) : AppState :=
  { s with currentMode := m, outputs := [] }

/-- `onVectorPromptChange` (the `setVectorPrompt` state setter). -/
def onVectorPromptChange (s : AppState) (t : String) : AppState :=
  { s with vectorPrompt := t }

/-- One observable transition of the app: any UI handler, one scheduler
re-evaluation, or the settlement of a dispatched call. -/
inductive Step : AppState → AppState → Prop where
  | generate {s} : Step s (handleGenerate s).1
  | cancel {s} : Step s (handleCancel s)
  | tick {s} : Step s (schedulerTick s)
  | succeed {s} (j : Nat) (url : String) : Step s (settleSuccess s j url)
  | fail {s} (j : Nat) (msg : String) : Step s (settleFailure s j msg)
  | missing {s} (j : Nat) : Step s (settleMissing s j)
  | regen {s} (j : Nat) : Step s (handleRegenerate s j)
  | upload {s} (d : String) : Step s (handleFilesSelected s d)
  | clearUploads {s} : Step s (handleClearUploads s)
  | removeUpload {s} (i : Nat) : Step s (handleRemoveUpload s i)
  | addPrompt {s} (t x : String) : Step s (handleAddPrompt s t x)
  | removePrompt {s} (i : Int) : Step s (handleRemovePrompt s i)
  | modeChange {s} (m : Mode) : Step s (handleModeChange s m)
  | setVector {s} (t : String) : Step s (onVectorPromptChange s t)

/-- States reachable from the initial render. -/
inductive Reachable : AppState → Prop where
  | init : Reachable initState
  | step {s s'} : Reachable s → Step s s' → Reachable s'

/-- The inductive invariant of the run: the in-flight set respects the
ceiling, the job list is strictly sorted by id (creation order), and a
pending job always carries a null result and a null error message. -/
def Inv (s : AppState) : Prop :=
  s.processingIds.card ≤ API_CONCURRENCY_LIMIT ∧
  s.outputs.Pairwise (fun a b => a.id < b.id) ∧
  ∀ o ∈ s.outputs, o.status = OutputStatus.pending →
    o.imageUrl = none ∧ o.error = none

/-- A state just after a cancellation: the single job was forced to
`error`/"Cancelled by user." while its external call is still outstanding
(the in-flight set was cleared by `handleCancel`). -/
def exCancelled : AppState :=
  { currentMode := Mode.vector
    uploadedImages := [⟨0, "img"⟩]
    prompts := []
    vectorPrompt := "edit"
    outputs := [⟨1, 0, -1, none, OutputStatus.error, some "Cancelled by user."⟩]
    isGenerating := false
    nextId := 2
    processingIds := ∅ }

/-- A state with one job currently `generating`. -/
def exGenerating : AppState :=
  { currentMode := Mode.vector
    uploadedImages := [⟨0, "img"⟩]
    prompts := []
    vectorPrompt := "edit"
    outputs := [⟨1, 0, -1, none, OutputStatus.generating, none⟩]
    isGenerating := true
    nextId := 2
    processingIds := {1} }

/-- A state with one `generating` and one `complete` job. -/
def exMixed : AppState :=
  { currentMode := Mode.vector
    uploadedImages := [⟨0, "img"⟩]
    prompts := []
    vectorPrompt := "edit"
    outputs := [⟨1, 0, -1, none, OutputStatus.generating, none⟩,
      ⟨2, 0, -1, some "url", OutputStatus.complete, none⟩]
    isGenerating := true
    nextId := 3
    processingIds := {1} }

/-- A matrix-mode state ready to build: two images, one prompt. -/
def exMatrix : AppState :=
  { currentMode := Mode.matrix
    uploadedImages := [⟨0, "a"⟩, ⟨1, "b"⟩]
    prompts := [⟨2, "t", "x"⟩]
    vectorPrompt := ""
    outputs := []
    isGenerating := false
    nextId := 3
    processingIds := ∅ }

/-- A matrix-mode state with a prompt but no uploaded image. -/
def exNoImages : AppState :=
  { currentMode := Mode.matrix
    uploadedImages := []
    prompts := [⟨0, "t", "x"⟩]
    vectorPrompt := ""
    outputs := []
    isGenerating := false
    nextId := 1
    processingIds := ∅ }

/-- A matrix-mode state with an image but no prompt at all. -/
def exNoPrompts : AppState :=
  { currentMode := Mode.matrix
    uploadedImages := [⟨0, "a"⟩]
    prompts := []
    vectorPrompt := ""
    outputs := []
    isGenerating := false
    nextId := 1
    processingIds := ∅ }

/-- A state whose two jobs are both terminal (`complete` and `error`). -/
def exTerminal : AppState :=
  { currentMode := Mode.vector
    uploadedImages := [⟨0, "a"⟩]
    prompts := []
    vectorPrompt := "p"
    outputs := [⟨1, 0, -1, some "url", OutputStatus.complete, none⟩,
      ⟨2, 0, -1, none, OutputStatus.error, some "boom"⟩]
    isGenerating := false
    nextId := 3
    processingIds := ∅ }

/-- A drained run: the flag is still on, every job is terminal, nothing is
in flight. -/
def exDrained : AppState :=
  { currentMode := Mode.vector
    uploadedImages := [⟨0, "a"⟩]
    prompts := []
    vectorPrompt := "p"
    outputs := [⟨1, 0, -1, some "url", OutputStatus.complete, none⟩]
    isGenerating := true
    nextId := 2
    processingIds := ∅ }

/-- A reachable state holding one pending job: upload an image, add a
prompt, switch to matrix mode, press generate. -/
def reachPending : AppState :=
  (handleGenerate
    (handleModeChange (handleAddPrompt (handleFilesSelected initState "img")
      "t" "x") Mode.matrix)).1

theorem buildRow_snd (imgId : Nat) (ps : List Prompt) (n : Nat) :
    (buildRow imgId ps n).2 = n + ps.length := by
  induction ps generalizing n with
  | nil => simp [buildRow]
  | cons p rest ih => simp [buildRow, ih]; omega

theorem buildRow_mem (imgId : Nat) (ps : List Prompt) (n : Nat) :
    ∀ o ∈ (buildRow imgId ps n).1,
      n ≤ o.id ∧ o.id < n + ps.length ∧ o.sourceImageId = imgId ∧
      o.status = OutputStatus.pending ∧ o.imageUrl = none ∧ o.error = none := by
  induction ps generalizing n with
  | nil => simp [buildRow]
  | cons p rest ih =>
    intro o ho
    simp only [buildRow, List.mem_cons] at ho
    rcases ho with rfl | ho
    · refine ⟨le_refl _, ?_, rfl, rfl, rfl, rfl⟩
      simp only [List.length_cons]; omega
    · obtain ⟨h1, h2, h3⟩ := ih (n + 1) o ho
      refine ⟨by omega, ?_, h3⟩
      simp only [List.length_cons]; omega

theorem buildRow_pairwise (imgId : Nat) (ps : List Prompt) (n : Nat) :
    (buildRow imgId ps n).1.Pairwise (fun a b => a.id < b.id) := by
  induction ps generalizing n with
  | nil => simp [buildRow]
  | cons p rest ih =>
    simp only [buildRow, List.pairwise_cons]
    refine ⟨?_, ih (n + 1)⟩
    intro o ho
    have := (buildRow_mem imgId rest (n + 1) o ho).1
    simpa using by omega

theorem buildRow_pairs (imgId : Nat) (ps : List Prompt) (n : Nat) :
    (buildRow imgId ps n).1.map (fun o => (o.sourceImageId, o.promptId)) =
      ps.map (fun p => (imgId, p.id)) := by
  induction ps generalizing n with
  | nil => simp [buildRow]
  | cons p rest ih => simp [buildRow, ih]

theorem buildRow_length (imgId : Nat) (ps : List Prompt) (n : Nat) :
    (buildRow imgId ps n).1.length = ps.length := by
  induction ps generalizing n with
  | nil => simp [buildRow]
  | cons p rest ih => simp [buildRow, ih]

theorem buildOutputs_snd (imgs : List UploadedImage) (ps : List Prompt)
    (n : Nat) :
    (buildOutputs imgs ps n).2 = n + imgs.length * ps.length := by
  induction imgs generalizing n with
  | nil => simp [buildOutputs]
  | cons i rest ih =>
    simp only [buildOutputs, ih, buildRow_snd, List.length_cons]
    ring

theorem buildOutputs_mem (imgs : List UploadedImage) (ps : List Prompt)
    (n : Nat) :
    ∀ o ∈ (buildOutputs imgs ps n).1,
      n ≤ o.id ∧ o.id < (buildOutputs imgs ps n).2 ∧
      o.status = OutputStatus.pending ∧ o.imageUrl = none ∧ o.error = none := by
  induction imgs generalizing n with
  | nil => simp [buildOutputs]
  | cons i rest ih =>
    intro o ho
    have hrow := buildRow_snd i.id ps n
    have hb := buildOutputs_snd (i :: rest) ps n
    have hb2 := buildOutputs_snd rest ps (buildRow i.id ps n).2
    have hexp : (i :: rest).length * ps.length =
        ps.length + rest.length * ps.length := by
      simp only [List.length_cons]; ring
    simp only [buildOutputs, List.mem_append] at ho
    rcases ho with ho | ho
    · obtain ⟨h1, h2, _, h4⟩ := buildRow_mem i.id ps n o ho
      rw [hexp] at hb
      exact ⟨h1, by omega, h4⟩
    · obtain ⟨h1, h2, h3⟩ := ih (buildRow i.id ps n).2 o ho
      rw [hexp] at hb
      rw [hb2, hrow] at h2
      exact ⟨by omega, by omega, h3⟩

theorem buildOutputs_pairwise (imgs : List UploadedImage) (ps : List Prompt)
    (n : Nat) :
    (buildOutputs imgs ps n).1.Pairwise (fun a b => a.id < b.id) := by
  induction imgs generalizing n with
  | nil => simp [buildOutputs]
  | cons i rest ih =>
    simp only [buildOutputs]
    rw [List.pairwise_append]
    refine ⟨buildRow_pairwise i.id ps n, ih _, ?_⟩
    intro a ha b hb
    have h1 := (buildRow_mem i.id ps n a ha).2.1
    have h2 := (buildOutputs_mem rest ps (buildRow i.id ps n).2 b hb).1
    rw [buildRow_snd] at h2
    omega

theorem buildOutputs_pairs (imgs : List UploadedImage) (ps : List Prompt)
    (n : Nat) :
    (buildOutputs imgs ps n).1.map (fun o => (o.sourceImageId, o.promptId)) =
      imgs.flatMap (fun i => ps.map (fun p => (i.id, p.id))) := by
  induction imgs generalizing n with
  | nil => simp [buildOutputs]
  | cons i rest ih =>
    simp [buildOutputs, List.map_append, buildRow_pairs, ih]

theorem pairwise_ids_map (l : List Output) (f : Output → Output)
    (hf : ∀ o, (f o).id = o.id)
    (h : l.Pairwise fun a b => a.id < b.id) :
    (l.map f).Pairwise (fun a b => a.id < b.id) := by
  rw [List.pairwise_map]
  exact h.imp fun hab => by rw [hf, hf]; exact hab

theorem pendingNulls_map (l : List Output) (f : Output → Output)
    (h : ∀ o ∈ l, o.status = OutputStatus.pending →
      o.imageUrl = none ∧ o.error = none)
    (hf : ∀ o, (o.status = OutputStatus.pending →
        o.imageUrl = none ∧ o.error = none) →
      (f o).status = OutputStatus.pending →
        (f o).imageUrl = none ∧ (f o).error = none) :
    ∀ o ∈ l.map f, o.status = OutputStatus.pending →
      o.imageUrl = none ∧ o.error = none := by
  intro o ho
  rw [List.mem_map] at ho
  obtain ⟨a, ha, rfl⟩ := ho
  exact hf a (h a ha)

theorem foldl_dispatch_card (items : List Output) (s : AppState) :
    ((items.foldl (fun acc o => dispatchOne acc o.id) s).processingIds).card ≤
      s.processingIds.card + items.length := by
  induction items generalizing s with
  | nil => simp
  | cons o rest ih =>
    have h1 := ih (dispatchOne s o.id)
    have h2 := Finset.card_insert_le o.id s.processingIds
    simp only [List.foldl_cons, List.length_cons]
    have h3 : (dispatchOne s o.id).processingIds.card ≤
        s.processingIds.card + 1 := h2
    omega

theorem foldl_dispatch_pairwise (items : List Output) (s : AppState)
    (h : s.outputs.Pairwise fun a b => a.id < b.id) :
    ((items.foldl (fun acc o => dispatchOne acc o.id) s).outputs).Pairwise
      (fun a b => a.id < b.id) := by
  induction items generalizing s with
  | nil => exact h
  | cons o rest ih =>
    exact ih (dispatchOne s o.id)
      (pairwise_ids_map _ _
        (fun a => by by_cases hc : a.id = o.id <;> simp [hc]) h)

theorem foldl_dispatch_pendingNulls (items : List Output) (s : AppState)
    (h : ∀ o ∈ s.outputs, o.status = OutputStatus.pending →
      o.imageUrl = none ∧ o.error = none) :
    ∀ o ∈ (items.foldl (fun acc o => dispatchOne acc o.id) s).outputs,
      o.status = OutputStatus.pending →
        o.imageUrl = none ∧ o.error = none := by
  induction items generalizing s with
  | nil => exact h
  | cons o rest ih =>
    refine ih (dispatchOne s o.id) (pendingNulls_map _ _ h ?_)
    intro a ha
    by_cases hc : a.id = o.id
    · simp [hc]
    · simpa [hc] using ha

theorem foldl_dispatch_isGenerating (items : List Output) (s : AppState) :
    (items.foldl (fun acc o => dispatchOne acc o.id) s).isGenerating =
      s.isGenerating := by
  induction items generalizing s with
  | nil => rfl
  | cons o rest ih => exact ih (dispatchOne s o.id)

theorem itemsToProcess_eq_take (s : AppState)
    (h : s.processingIds.card ≤ API_CONCURRENCY_LIMIT) :
    itemsToProcess s = (pendingOutputs s).take
      (API_CONCURRENCY_LIMIT - s.processingIds.card) := by
  unfold itemsToProcess jsSliceTo availableSlots
  unfold API_CONCURRENCY_LIMIT at h ⊢
  rw [if_pos (by omega)]
  congr 1
  omega

theorem itemsToProcess_le (s : AppState)
    (h : s.processingIds.card ≤ API_CONCURRENCY_LIMIT) :
    (itemsToProcess s).length ≤
      API_CONCURRENCY_LIMIT - s.processingIds.card := by
  rw [itemsToProcess_eq_take s h]
  simp [List.length_take]

theorem inv_handleGenerate {s : AppState} (h : Inv s) :
    Inv (handleGenerate s).1 := by
  obtain ⟨hA, hB, hC⟩ := h
  unfold handleGenerate
  split
  · exact ⟨hA, hB, hC⟩
  · split
    · exact ⟨hA, hB, hC⟩
    · refine ⟨hA, buildOutputs_pairwise _ _ _, ?_⟩
      intro o ho _
      have := buildOutputs_mem s.uploadedImages (promptsToUse s) s.nextId o ho
      exact ⟨this.2.2.2.1, this.2.2.2.2⟩

theorem inv_handleCancel {s : AppState} (h : Inv s) : Inv (handleCancel s) := by
  obtain ⟨hA, hB, hC⟩ := h
  refine ⟨by simp [handleCancel, API_CONCURRENCY_LIMIT], ?_, ?_⟩
  · exact pairwise_ids_map _ _ (fun o => by unfold cancelOutput; split <;> rfl) hB
  · refine pendingNulls_map _ _ hC ?_
    intro a ha
    unfold cancelOutput
    split
    · intro hst; simp at hst
    · exact ha

theorem inv_schedulerTick {s : AppState} (h : Inv s) :
    Inv (schedulerTick s) := by
  obtain ⟨hA, hB, hC⟩ := h
  unfold schedulerTick
  split
  · exact ⟨hA, hB, hC⟩
  · split
    · split
      · exact ⟨hA, hB, hC⟩
      · exact ⟨hA, hB, hC⟩
    · refine ⟨?_, foldl_dispatch_pairwise _ _ hB,
        foldl_dispatch_pendingNulls _ _ hC⟩
      have h1 := foldl_dispatch_card (itemsToProcess s) s
      have h2 := itemsToProcess_le s hA
      unfold API_CONCURRENCY_LIMIT at hA h2 ⊢
      omega

theorem inv_settleSuccess {s : AppState} (j : Nat) (url : String)
    (h : Inv s) : Inv (settleSuccess s j url) := by
  obtain ⟨hA, hB, hC⟩ := h
  refine ⟨le_trans (Finset.card_erase_le) hA, ?_, ?_⟩
  · refine pairwise_ids_map _ _ ?_ hB
    intro o
    by_cases hc : o.id = j ∧ o.status = OutputStatus.generating <;> simp [hc]
  · refine pendingNulls_map _ _ hC ?_
    intro a ha
    by_cases hc : a.id = j ∧ a.status = OutputStatus.generating
    · simp [hc]
    · simpa [hc] using ha

theorem inv_settleFailure {s : AppState} (j : Nat) (msg : String)
    (h : Inv s) : Inv (settleFailure s j msg) := by
  obtain ⟨hA, hB, hC⟩ := h
  refine ⟨le_trans (Finset.card_erase_le) hA, ?_, ?_⟩
  · refine pairwise_ids_map _ _ ?_ hB
    intro o
    by_cases hc : o.id = j <;> simp [hc]
  · refine pendingNulls_map _ _ hC ?_
    intro a ha
    by_cases hc : a.id = j
    · simp [hc]
    · simpa [hc] using ha

theorem inv_settleMissing {s : AppState} (j : Nat) (h : Inv s) :
    Inv (settleMissing s j) := by
  obtain ⟨hA, hB, hC⟩ := h
  refine ⟨le_trans (Finset.card_erase_le) hA, ?_, ?_⟩
  · refine pairwise_ids_map _ _ ?_ hB
    intro o
    by_cases hc : o.id = j <;> simp [hc]
  · refine pendingNulls_map _ _ hC ?_
    intro a ha
    by_cases hc : a.id = j
    · simp [hc]
    · simpa [hc] using ha

theorem inv_handleRegenerate {s : AppState} (j : Nat) (h : Inv s) :
    Inv (handleRegenerate s j) := by
  obtain ⟨hA, hB, hC⟩ := h
  refine ⟨hA, ?_, ?_⟩
  · refine pairwise_ids_map _ _ ?_ hB
    intro o
    by_cases hc : o.id = j <;> simp [hc]
  · refine pendingNulls_map _ _ hC ?_
    intro a ha
    by_cases hc : a.id = j
    · simp [hc]
    · simpa [hc] using ha

theorem inv_step {s s' : AppState} (h : Inv s) (hs : Step s s') : Inv s' := by
  cases hs with
  | generate => exact inv_handleGenerate h
  | cancel => exact inv_handleCancel h
  | tick => exact inv_schedulerTick h
  | succeed j url => exact inv_settleSuccess j url h
  | fail j msg => exact inv_settleFailure j msg h
  | missing j => exact inv_settleMissing j h
  | regen j => exact inv_handleRegenerate j h
  | upload d => exact ⟨h.1, h.2.1, h.2.2⟩
  | clearUploads => exact ⟨h.1, by simp [handleClearUploads], by simp [handleClearUploads]⟩
  | removeUpload i => exact ⟨h.1, h.2.1, h.2.2⟩
  | addPrompt t x => exact ⟨h.1, h.2.1, h.2.2⟩
  | removePrompt i => exact ⟨h.1, h.2.1, h.2.2⟩
  | modeChange m => exact ⟨h.1, by simp [handleModeChange], by simp [handleModeChange]⟩
  | setVector t => exact ⟨h.1, h.2.1, h.2.2⟩

theorem reachable_inv {s : AppState} (h : Reachable s) : Inv s := by
  induction h with
  | init =>
    refine ⟨?_, ?_, ?_⟩ <;> simp [initState, API_CONCURRENCY_LIMIT]
  | step _ hs ih => exact inv_step ih hs

theorem buildOutputs_length (imgs : List UploadedImage) (ps : List Prompt)
    (n : Nat) :
    (buildOutputs imgs ps n).1.length = imgs.length * ps.length := by
  induction imgs generalizing n with
  | nil => simp [buildOutputs]
  | cons i rest ih =>
    simp only [buildOutputs, List.length_append, buildRow_length, ih,
      List.length_cons]
    ring

theorem zip_map_snd (l : List Output) (f : Output → Output) :
    ∀ q ∈ l.zip (l.map f), q.2 = f q.1 := by
  induction l with
  | nil => simp
  | cons a rest ih =>
    intro q hq
    simp only [List.map_cons, List.zip_cons_cons, List.mem_cons] at hq
    rcases hq with rfl | hq
    · rfl
    · exact ih q hq

theorem map_id_on (l : List Output) (f : Output → Output)
    (h : ∀ o ∈ l, f o = o) : l.map f = l := by
  induction l with
  | nil => rfl
  | cons a rest ih =>
    rw [List.map_cons, h a (List.mem_cons_self a rest),
      ih fun o ho => h o (List.mem_cons_of_mem a ho)]

theorem output_reset_eq (o : Output) (hp : o.status = OutputStatus.pending)
    (hu : o.imageUrl = none) (he : o.error = none) :
    { o with status := OutputStatus.pending, imageUrl := none,
             error := none } = o := by
  obtain ⟨i, sid, pid, url, st, err⟩ := o
  simp_all

theorem reachPending_reachable : Reachable reachPending :=
  Reachable.step
    (Reachable.step
      (Reachable.step
        (Reachable.step Reachable.init (Step.upload "img"))
        (Step.addPrompt "t" "x"))
      (Step.modeChange Mode.matrix))
    Step.generate

/-- C1 counterexample: the claim fails on the failure settlement. In the
post-cancellation state `exCancelled` the job's status is `error` (not
`generating`), yet a failure settlement still overwrites its record: the
error message changes from "Cancelled by user." to the failure's
message. -/
theorem c1_counterexample :
    (settleFailure exCancelled 1 "network error").outputs.map
        (fun o => o.error) = [some "network error"] ∧
    exCancelled.outputs.map (fun o => o.error) =
      [some "Cancelled by user."] := by
  exact ⟨rfl, rfl⟩

/-- C1 (amended): only the success settlement of `runGeneration` is guarded
by `status = generating` — it leaves a job whose status is no longer
`generating` (e.g. forced to `error` by cancellation) entirely unchanged.
The failure settlement matches on id alone: it keeps the job's result
reference and (re)sets status `error`, but unconditionally overwrites the
error message with the failure's message. -/
theorem c1_settlement_guard_amended (s : AppState) (j : Nat)
    (url msg : String) :
    (∀ q ∈ s.outputs.zip (settleSuccess s j url).outputs,
      ¬ (q.1.id = j ∧ q.1.status = OutputStatus.generating) → q.2 = q.1) ∧
    (∀ q ∈ s.outputs.zip (settleFailure s j msg).outputs,
      (q.1.id = j →
        q.2 = { q.1 with status := OutputStatus.error, error := some msg }) ∧
      (¬ q.1.id = j → q.2 = q.1)) := by
  constructor
  · intro q hq hng
    have h2 := zip_map_snd s.outputs _ q hq
    rw [h2, if_neg hng]
  · intro q hq
    have h2 := zip_map_snd s.outputs _ q hq
    exact ⟨fun hj => by rw [h2, if_pos hj],
      fun hnj => by rw [h2, if_neg hnj]⟩

/-- C1 witness: the amended failure-settlement behaviour evaluated on the
cancelled job of `exCancelled`. -/
theorem c1_witness :
    ((⟨1, 0, -1, none, OutputStatus.error, some "Cancelled by user."⟩ :
        Output),
      (⟨1, 0, -1, none, OutputStatus.error, some "network error"⟩ :
        Output)).2 =
      { (⟨1, 0, -1, none, OutputStatus.error, some "Cancelled by user."⟩ :
          Output) with status := OutputStatus.error,
                       error := some "network error" } :=
  ((c1_settlement_guard_amended exCancelled 1 "u" "network error").2 _
    (by decide)).1 rfl

/-- C2 counterexample: regenerate on a job whose status is `generating` is
not a no-op — it resets the job to `pending`. -/
theorem c2_counterexample :
    (handleRegenerate exGenerating 1).outputs ≠ exGenerating.outputs := by
  decide

/-- C2 (amended): `handleRegenerate` unconditionally resets the addressed
job to `pending` with null result and error, and leaves every other job
unchanged. On a `pending` job this is a no-op (in every reachable state a
pending job already has null result and error), but on a `generating` job
it changes the status to `pending`. -/
theorem c2_regenerate_nonterminal_amended (s : AppState) (j : Nat)
    (hr : Reachable s) :
    ∀ q ∈ s.outputs.zip (handleRegenerate s j).outputs,
      (¬ q.1.id = j → q.2 = q.1) ∧
      (q.1.id = j →
        q.2 = { q.1 with status := OutputStatus.pending, imageUrl := none,
                         error := none } ∧
        (q.1.status = OutputStatus.pending → q.2 = q.1)) := by
  intro q hq
  have h2 := zip_map_snd s.outputs _ q hq
  obtain ⟨x, y⟩ := q
  have hmem : x ∈ s.outputs := (List.of_mem_zip hq).1
  refine ⟨fun hnj => by rw [h2, if_neg hnj], fun hj => ?_⟩
  refine ⟨by rw [h2, if_pos hj], fun hp => ?_⟩
  obtain ⟨hu, he⟩ := (reachable_inv hr).2.2 x hmem hp
  rw [h2, if_pos hj]
  exact output_reset_eq x hp hu he

/-- C2 witness: in the reachable state `reachPending` (one pending job with
id 2), regenerating job 2 leaves its record unchanged. -/
theorem c2_witness :
    ((⟨2, 0, 1, none, OutputStatus.pending, none⟩ : Output),
      (⟨2, 0, 1, none, OutputStatus.pending, none⟩ : Output)).2 =
      ((⟨2, 0, 1, none, OutputStatus.pending, none⟩ : Output),
        (⟨2, 0, 1, none, OutputStatus.pending, none⟩ : Output)).1 :=
  (((c2_regenerate_nonterminal_amended reachPending 2 reachPending_reachable)
      _ (by decide)).2 rfl).2 rfl

/-- C3: at every reachable instant the in-flight set has at most
`API_CONCURRENCY_LIMIT` (= 2) elements, and a scheduler re-evaluation
admits at most `API_CONCURRENCY_LIMIT - |in-flight set|` jobs. -/
theorem c3_inflight_bounded (s : AppState) (h : Reachable s) :
    s.processingIds.card ≤ API_CONCURRENCY_LIMIT ∧
    (itemsToProcess s).length ≤
      API_CONCURRENCY_LIMIT - s.processingIds.card :=
  ⟨(reachable_inv h).1, itemsToProcess_le s (reachable_inv h).1⟩

/-- C3 witness: the bound evaluated at the reachable state
`reachPending`. -/
theorem c3_witness :
    reachPending.processingIds.card ≤ API_CONCURRENCY_LIMIT ∧
    (itemsToProcess reachPending).length ≤
      API_CONCURRENCY_LIMIT - reachPending.processingIds.card :=
  c3_inflight_bounded reachPending reachPending_reachable

/-- C4: `handleCancel` turns the flag off, clears the in-flight set,
keeps the job count, errors every pending/generating job with exactly
"Cancelled by user.", and leaves every terminal job unchanged. -/
theorem c4_cancel_spec (s : AppState) :
    (handleCancel s).isGenerating = false ∧
    (handleCancel s).processingIds = ∅ ∧
    (handleCancel s).outputs.length = s.outputs.length ∧
    ∀ q ∈ s.outputs.zip (handleCancel s).outputs,
      ((q.1.status = OutputStatus.pending ∨
          q.1.status = OutputStatus.generating) →
        q.2 = { q.1 with status := OutputStatus.error,
                         error := some "Cancelled by user." }) ∧
      ((q.1.status = OutputStatus.complete ∨
          q.1.status = OutputStatus.error) → q.2 = q.1) := by
  refine ⟨rfl, rfl, by simp [handleCancel], ?_⟩
  intro q hq
  have h2 := zip_map_snd s.outputs _ q hq
  constructor
  · intro hng
    rw [h2]; unfold cancelOutput; rw [if_pos hng]
  · intro ht
    have hng : ¬ (q.1.status = OutputStatus.pending ∨
        q.1.status = OutputStatus.generating) := by
      rcases ht with hh | hh <;> simp [hh]
    rw [h2]; unfold cancelOutput; rw [if_neg hng]

/-- C4 witness: cancelling `exMixed` errors the generating job while the
complete job is untouched; evaluated at the generating job's pair. -/
theorem c4_witness :
    (handleCancel exMixed).isGenerating = false ∧
    ((⟨1, 0, -1, none, OutputStatus.generating, none⟩ : Output),
      (⟨1, 0, -1, none, OutputStatus.error,
        some "Cancelled by user."⟩ : Output)).2 =
      { (⟨1, 0, -1, none, OutputStatus.generating, none⟩ : Output) with
          status := OutputStatus.error,
          error := some "Cancelled by user." } :=
  ⟨(c4_cancel_spec exMixed).1,
    ((c4_cancel_spec exMixed).2.2.2 _ (by decide)).1 (Or.inr rfl)⟩

/-- C5: a matrix-mode build from `m` images and `n` prompts (flag off,
both nonempty) creates exactly `m*n` pending jobs with null result and
error, pairwise distinct ids all at least the old counter value, ordered
by outer loop over images and inner loop over prompts, replacing the old
job set; no validation alert fires and the flag turns on. -/
theorem c5_build_matrix (s : AppState)
    (hmode : s.currentMode = Mode.matrix)
    (hflag : s.isGenerating = false)
    (himg : s.uploadedImages.length ≠ 0)
    (hpr : s.prompts.length > 0) :
    (handleGenerate s).2 = false ∧
    (handleGenerate s).1.isGenerating = true ∧
    (handleGenerate s).1.outputs.length =
      s.uploadedImages.length * s.prompts.length ∧
    (∀ o ∈ (handleGenerate s).1.outputs,
      o.status = OutputStatus.pending ∧ o.imageUrl = none ∧
      o.error = none ∧ s.nextId ≤ o.id) ∧
    ((handleGenerate s).1.outputs.map (fun o => o.id)).Nodup ∧
    (handleGenerate s).1.outputs.map
        (fun o => (o.sourceImageId, o.promptId)) =
      s.uploadedImages.flatMap
        (fun i => s.prompts.map (fun p => (i.id, p.id))) := by
  have hnotv : ¬ (s.isGenerating = true ∨ s.uploadedImages.length = 0) := by
    simp [hflag, himg]
  have hready : ¬ (¬ isVectorReady s ∧ ¬ isMatrixReady s) := by
    intro hc; exact hc.2 ⟨hmode, hpr⟩
  have hptu : promptsToUse s = s.prompts := by
    unfold promptsToUse
    rw [hmode]
    simp
  unfold handleGenerate
  rw [if_neg hnotv, if_neg hready]
  refine ⟨rfl, rfl, ?_, ?_, ?_, ?_⟩
  · simp only [hptu]
    exact buildOutputs_length s.uploadedImages s.prompts s.nextId
  · intro o ho
    simp only [hptu] at ho
    have := buildOutputs_mem s.uploadedImages s.prompts s.nextId o ho
    exact ⟨this.2.2.1, this.2.2.2.1, this.2.2.2.2, this.1⟩
  · simp only [hptu]
    have hp := buildOutputs_pairwise s.uploadedImages s.prompts s.nextId
    have hm : ((buildOutputs s.uploadedImages s.prompts s.nextId).1.map
        (fun o => o.id)).Pairwise (fun a b => a < b) :=
      List.pairwise_map.mpr hp
    exact hm.imp Nat.ne_of_lt
  · simp only [hptu]
    exact buildOutputs_pairs s.uploadedImages s.prompts s.nextId

/-- C5 witness: building `exMatrix` (2 images × 1 prompt) yields 2 jobs in
image-major order. -/
theorem c5_witness :
    (handleGenerate exMatrix).1.outputs.length =
      exMatrix.uploadedImages.length * exMatrix.prompts.length ∧
    (handleGenerate exMatrix).1.outputs.map
        (fun o => (o.sourceImageId, o.promptId)) =
      exMatrix.uploadedImages.flatMap
        (fun i => exMatrix.prompts.map (fun p => (i.id, p.id))) :=
  ⟨(c5_build_matrix exMatrix rfl rfl (by decide) (by decide)).2.2.1,
    (c5_build_matrix exMatrix rfl rfl (by decide)
      (by decide)).2.2.2.2.2⟩

/-- C6: in every reachable state, the admitted list of a re-evaluation is
exactly the first `API_CONCURRENCY_LIMIT - |in-flight|` elements of the
list of pending jobs not in flight, and that list is strictly sorted by
job id (creation order), i.e. admission is FIFO by job id. -/
theorem c6_admission_fifo (s : AppState) (h : Reachable s) :
    itemsToProcess s = (pendingOutputs s).take
      (API_CONCURRENCY_LIMIT - s.processingIds.card) ∧
    ((pendingOutputs s).map (fun o => o.id)).Pairwise
      (fun a b => a < b) := by
  have hI := reachable_inv h
  refine ⟨itemsToProcess_eq_take s hI.1, ?_⟩
  have hp : (pendingOutputs s).Pairwise (fun a b => a.id < b.id) :=
    List.Pairwise.sublist (List.filter_sublist s.outputs) hI.2.1
  exact List.pairwise_map.mpr hp

/-- C6 witness: the admission rule evaluated at the reachable state
`reachPending`. -/
theorem c6_witness :
    itemsToProcess reachPending = (pendingOutputs reachPending).take
      (API_CONCURRENCY_LIMIT - reachPending.processingIds.card) ∧
    ((pendingOutputs reachPending).map (fun o => o.id)).Pairwise
      (fun a b => a < b) :=
  c6_admission_fifo reachPending reachPending_reachable

/-- C7 counterexample: with zero images `handleGenerate` does not report a
validation failure — the early return is silent (no alert), contrary to
the claim; the state is indeed unchanged. -/
theorem c7_counterexample :
    (handleGenerate exNoImages).2 = false ∧
    (handleGenerate exNoImages).1 = exNoImages := ⟨rfl, rfl⟩

/-- C7 (amended): a precondition-violating `handleGenerate` creates no
jobs and leaves the whole state (and hence the flag) unchanged, but the
validation failure is reported (the alert fires) only when at least one
image is present; with zero images the call silently no-ops. -/
theorem c7_generate_invalid_amended (s : AppState)
    (hflag : s.isGenerating = false)
    (hviol : s.uploadedImages.length = 0 ∨
      (s.currentMode = Mode.vector ∧ s.vectorPrompt.trim = "") ∨
      (s.currentMode = Mode.matrix ∧ s.prompts.length = 0)) :
    (handleGenerate s).1 = s ∧
    ((handleGenerate s).2 = true ↔ s.uploadedImages.length ≠ 0) := by
  unfold handleGenerate
  by_cases h0 : s.uploadedImages.length = 0
  · rw [if_pos (Or.inr h0)]
    simp [h0]
  · rw [if_neg (by simp [hflag, h0])]
    have hnot : ¬ isVectorReady s ∧ ¬ isMatrixReady s := by
      rcases hviol with hh | ⟨hm, ht⟩ | ⟨hm, hp⟩
      · exact absurd hh h0
      · refine ⟨fun hv => ?_, fun hmx => ?_⟩
        · exact hv.2 ht
        · have := hmx.1
          rw [hm] at this
          exact absurd this (by decide)
      · refine ⟨fun hv => ?_, fun hmx => ?_⟩
        · have := hv.1
          rw [hm] at this
          exact absurd this (by decide)
        · have := hmx.2
          omega
    rw [if_pos hnot]
    simp [h0]

/-- C7 witness: the amended behaviour on `exNoPrompts` (one image, matrix
mode, no prompts): state unchanged and the alert fires. -/
theorem c7_witness :
    (handleGenerate exNoPrompts).1 = exNoPrompts ∧
    ((handleGenerate exNoPrompts).2 = true ↔
      exNoPrompts.uploadedImages.length ≠ 0) :=
  c7_generate_invalid_amended exNoPrompts rfl
    (Or.inr (Or.inr ⟨rfl, rfl⟩))

/-- C8: regenerating a terminal job resets it to `pending` with null
result and error, leaves every other job unchanged, and leaves the flag
on (turning it on if it was off). -/
theorem c8_regenerate_terminal (s : AppState) (j : Nat) :
    (handleRegenerate s j).isGenerating = true ∧
    ∀ q ∈ s.outputs.zip (handleRegenerate s j).outputs,
      (q.1.id = j →
        (q.1.status = OutputStatus.complete ∨
          q.1.status = OutputStatus.error) →
        q.2 = { q.1 with status := OutputStatus.pending, imageUrl := none,
                         error := none }) ∧
      (¬ q.1.id = j → q.2 = q.1) := by
  constructor
  · unfold handleRegenerate
    cases hb : s.isGenerating <;> simp [hb]
  · intro q hq
    have h2 := zip_map_snd s.outputs _ q hq
    exact ⟨fun hj _ => by rw [h2, if_pos hj],
      fun hnj => by rw [h2, if_neg hnj]⟩

/-- C8 witness: regenerating the complete job (id 1) of `exTerminal`. -/
theorem c8_witness :
    (handleRegenerate exTerminal 1).isGenerating = true ∧
    ((⟨1, 0, -1, some "url", OutputStatus.complete, none⟩ : Output),
      (⟨1, 0, -1, none, OutputStatus.pending, none⟩ : Output)).2 =
      { (⟨1, 0, -1, some "url", OutputStatus.complete, none⟩ : Output) with
          status := OutputStatus.pending, imageUrl := none,
          error := none } :=
  ⟨(c8_regenerate_terminal exTerminal 1).1,
    ((c8_regenerate_terminal exTerminal 1).2 _ (by decide)).1 rfl
      (Or.inl rfl)⟩

/-- C9: during a run (flag on), a scheduler re-evaluation turns the flag
off exactly when the admitted list is empty, the in-flight set is empty,
and no job is pending; otherwise the flag stays on. -/
theorem c9_termination (s : AppState) (h : s.isGenerating = true) :
    (schedulerTick s).isGenerating = false ↔
      (itemsToProcess s = [] ∧ s.processingIds = ∅ ∧
        ∀ o ∈ s.outputs, ¬ o.status = OutputStatus.pending) := by
  unfold schedulerTick
  rw [if_neg (by simp [h])]
  by_cases hc : (itemsToProcess s).length = 0 ∧ s.processingIds.card = 0
  · rw [if_pos hc]
    by_cases hp : s.outputs.any
        (fun o => decide (o.status = OutputStatus.pending)) = true
    · rw [if_pos hp]
      constructor
      · intro hfalse; exact absurd hfalse (by simp [h])
      · rintro ⟨-, -, hnone⟩
        simp only [List.any_eq_true, decide_eq_true_eq] at hp
        obtain ⟨o, ho, hdec⟩ := hp
        exact absurd hdec (hnone o ho)
    · rw [if_neg hp]
      constructor
      · intro _
        refine ⟨List.length_eq_zero.mp hc.1, Finset.card_eq_zero.mp hc.2, ?_⟩
        intro o ho hpend
        apply hp
        simp only [List.any_eq_true, decide_eq_true_eq]
        exact ⟨o, ho, hpend⟩
      · intro _; rfl
  · rw [if_neg hc, foldl_dispatch_isGenerating]
    constructor
    · intro hfalse; exact absurd hfalse (by simp [h])
    · rintro ⟨hi, hp2, -⟩
      exact absurd ⟨by rw [hi]; rfl, by rw [hp2]; simp⟩ hc

/-- C9 witness: on the drained run `exDrained` the re-evaluation turns the
flag off. -/
theorem c9_witness : (schedulerTick exDrained).isGenerating = false :=
  (c9_termination exDrained rfl).mpr ⟨by decide, by decide, by decide⟩

/-- C10: regenerating an id that occurs in no job leaves every job record
unchanged but still leaves the flag on (turning it on if it was off). -/
theorem c10_regenerate_unknown (s : AppState) (j : Nat)
    (h : ∀ o ∈ s.outputs, ¬ o.id = j) :
    (handleRegenerate s j).outputs = s.outputs ∧
    (handleRegenerate s j).isGenerating = true := by
  constructor
  · exact map_id_on s.outputs _ fun o ho => if_neg (h o ho)
  · unfold handleRegenerate
    cases hb : s.isGenerating <;> simp [hb]

/-- C10 witness: regenerating the unknown id 99 on `exTerminal`. -/
theorem c10_witness :
    (handleRegenerate exTerminal 99).outputs = exTerminal.outputs ∧
    (handleRegenerate exTerminal 99).isGenerating = true :=
  c10_regenerate_unknown exTerminal 99 (by decide)

end Dex
